import Mathlib

/-!
Verification of the WireConnect job-assignment core.

This file gives a shallow embedding of the assignment state machine of the
WireConnect backend (the most advanced revision of `server.js`, the one the
specification's core describes: conditional reservation, decline/timeout
handling, multi-worker acceptance).  Jobs live in a single relational row;
each HTTP handler and the deferred timeout callback are modelled as pure
functions on that row, sequentially atomic, with the candidate pools the
handlers would read from the `users` table passed in as parameters.

Technician identifiers are modelled as naturals (the backend uses opaque
non-empty digit strings, so JavaScript truthiness never filters them out).
Timestamps are naturals counting milliseconds.
-/

/-- The `status` column of the `jobs` table.  The source stores strings;
`partlyFilled` models the string `'partial'` (that word is avoided as an
identifier because it is a Lean keyword). -/
inductive Status where
  | created
  | pending_assignment
  | pending_accept
  | partlyFilled
  | accepted
  | cancelled
deriving DecidableEq, Repr

/-- A technician identifier (a key of the `users` table). -/
abbrev TechId := Nat

/-- The assignment-relevant columns of one row of the `jobs` table, as created
by the `initSql` migration of the advanced revision. -/
structure Job where
  status : Status
  assigned_tech_id : Option TechId
  assigned_at : Option Nat
  expires_at : Option Nat
  workers_needed : Nat
  declined_techs : List TechId
  notified_techs : List TechId
  seen_by_tech : List TechId
  assigned_tech_ids : List TechId
  accepted_at : Option Nat
deriving DecidableEq, Repr

/-- A freshly inserted job row: `/api/book` inserts with status `'created'`,
the given `workers_needed`, and all assignment-tracking columns at their
defaults (`NULL` timestamps, empty arrays). -/
def bookJob (workers : Nat) : Job :=
  { status := .created
    assigned_tech_id := none
    assigned_at := none
    expires_at := none
    workers_needed := workers
    declined_techs := []
    notified_techs := []
    seen_by_tech := []
    assigned_tech_ids := []
    accepted_at := none }

/-- The reservation guard of the conditional update in `attemptAssign`:
`WHERE ... AND status IN ('created','pending_assignment')`. -/
def reservable (s : Status) : Bool :=
  s = Status.created || s = Status.pending_assignment

/-- The acceptance-expiry window armed by `attemptAssign`:
`3 * 60 * 1000` milliseconds in the advanced revision. -/
def reservationWindowMs : Nat := 3 * 60 * 1000

/-- The effect of the successful conditional reservation update in
`attemptAssign`: `SET assigned_tech_id=$1, status='pending_accept',
assigned_at=now(), expires_at=$2, notified_techs = array_append(...)`. -/
def reserveUpdate (j : Job) (t : TechId) (now : Nat) : Job :=
  { j with
    status := .pending_accept
    assigned_tech_id := some t
    assigned_at := some now
    expires_at := some (now + reservationWindowMs)
    notified_techs := j.notified_techs ++ [t] }

/-- Fuel-indexed scan of `attemptAssign`'s candidate loop: starting at index
`i`, find the first candidate not in the declined list and not in the
already-assigned list.  `fuel` bounds the number of remaining indices; callers
pass `techs.length - i`, which is exact. -/
def findCandidateGo (declined assignedIds techs : List TechId) :
    Nat → Nat → Option (Nat × TechId)
  | 0, _ => none
  | fuel + 1, i =>
    if h : i < techs.length then
      let t := techs.get ⟨i, h⟩
      if t ∈ declined ∨ t ∈ assignedIds then
        findCandidateGo declined assignedIds techs fuel (i + 1)
      else
        some (i, t)
    else
      none

/-- The candidate scan of `attemptAssign` (lines "find next candidate that is
not in declined list and not already offered/assigned"). -/
def findCandidate (declined assignedIds techs : List TechId) (i : Nat) :
    Option (Nat × TechId) :=
  findCandidateGo declined assignedIds techs (techs.length - i) i

/-- Fuel-indexed body of `attemptAssign`.  The source recursion
`attemptAssign(jobId, techs, candidateIndex + 1)` strictly increases the
index, so `techs.length + 1 - attemptIndex` units of fuel always suffice; the
fuel-exhausted branch coincides with the index-exhausted branch. -/
def attemptAssignGo (j : Job) (techs : List TechId) (now : Nat) :
    Nat → Nat → Job × Option TechId
  | 0, _ => ({ j with status := .pending_assignment }, none)
  | fuel + 1, attemptIndex =>
    if techs.length = 0 then
      ({ j with status := .pending_assignment }, none)
    else if techs.length ≤ attemptIndex then
      ({ j with status := .pending_assignment }, none)
    else
      match findCandidate j.declined_techs j.assigned_tech_ids techs attemptIndex with
      | none => ({ j with status := .pending_assignment }, none)
      | some (_k, t) =>
        if reservable j.status then
          (reserveUpdate j t now, some t)
        else
          attemptAssignGo j techs now fuel (_k + 1)

/-- The assignment engine `attemptAssign(jobId, techs, attemptIndex)` of the
advanced revision, as a pure function of the job row: it returns the updated
row together with the reserved technician (`some t` models returning the
technician profile, `none` models returning `false`).  The deferred timeout
callback it arms is modelled separately by `timeoutFire`. -/
def attemptAssign (j : Job) (techs : List TechId) (attemptIndex now : Nat) :
    Job × Option TechId :=
  attemptAssignGo j techs now (techs.length + 1 - attemptIndex) attemptIndex

/-- The body of the request `POST /api/job/:id/respond`. -/
inductive RespondAction where
  | accept
  | decline
deriving DecidableEq, Repr

/-- The outcome reported by `/api/job/:id/respond`:  `notAssigned` is the 403
`'Not assigned to this technician'` response; the other two are the success
responses of the two actions. -/
inductive RespondResult where
  | notAssigned
  | acceptedOk
  | declinedOk
deriving DecidableEq, Repr

/-- `Number(after.workers_needed) || 1`: a zero / missing worker count is
treated as 1 by the acceptance-completion check. -/
def needThreshold (w : Nat) : Nat := if w = 0 then 1 else w

/-- The exclusion set built by the accept branch of `/api/job/:id/respond`
before re-entering the assignment engine:
`new Set([...job.assigned_tech_ids, ...declined, ...updatedAssigned])`
(the job row as read at the start of the handler, its declined list, and the
refetched assigned list). -/
def respondAcceptExclude (job : Job) (updatedAssigned : List TechId) : List TechId :=
  job.assigned_tech_ids ++ job.declined_techs ++ updatedAssigned

/-- The conditional append of the accept branch:
`CASE WHEN NOT ($1 = ANY(assigned_tech_ids)) THEN array_append(...) ELSE assigned_tech_ids END`,
followed by the refetch of the updated array. -/
def acceptUpdated (job : Job) (techId : TechId) : List TechId :=
  if techId ∈ job.assigned_tech_ids then job.assigned_tech_ids
  else job.assigned_tech_ids ++ [techId]

/-- The release update shared by the decline branch of `/api/job/:id/respond`
and by the timeout callback: `SET status='pending_assignment',
assigned_tech_id=NULL, assigned_at=NULL, expires_at=NULL,
declined_techs = array_append(COALESCE(declined_techs,'{}'), $1)`. -/
def declineUpdate (job : Job) (techId : TechId) : Job :=
  { job with
    status := .pending_assignment
    assigned_tech_id := none
    assigned_at := none
    expires_at := none
    declined_techs := job.declined_techs ++ [techId] }

/-- The handler of `POST /api/job/:id/respond` of the advanced revision, as a
pure function of the job row.  `pool` stands for the ranked technician list
the handler rebuilds from the `users` table for its re-assignment round
(online workers of the job's state, location-filtered and distance-sorted);
it is a parameter because the `users` table is outside the job row. -/
def respond (job : Job) (techId : TechId) (action : RespondAction)
    (pool : List TechId) (now : Nat) : Job × RespondResult :=
  if job.assigned_tech_id ≠ some techId ∧ techId ∉ job.assigned_tech_ids then
    (job, .notAssigned)
  else
    match action with
    | .accept =>
      let updatedAssigned := acceptUpdated job techId
      let j1 := { job with assigned_tech_ids := updatedAssigned }
      if needThreshold j1.workers_needed ≤ updatedAssigned.length then
        ({ j1 with status := .accepted, accepted_at := some now, expires_at := none },
          .acceptedOk)
      else
        let j2 := { j1 with status := .partlyFilled }
        let filtered := pool.filter (fun t => t ∉ respondAcceptExclude job updatedAssigned)
        ((attemptAssign j2 filtered 0 now).1, .acceptedOk)
    | .decline =>
      let j1 := declineUpdate job techId
      let filtered := pool.filter (fun t => t ≠ techId)
      ((attemptAssign j1 filtered 0 now).1, .declinedOk)

/-- The deferred expiration callback armed by `attemptAssign` (the `setTimeout`
body): it re-reads the job and, only when the job is still `'pending_accept'`
and still offered to the same technician, marks that technician declined,
releases the offer, and re-enters the assignment engine on a freshly built,
freshly ranked pool (again a parameter, for the same reason as in
`respond`). -/
def timeoutFire (job : Job) (techId : TechId) (pool : List TechId) (now : Nat) : Job :=
  if job.status = .pending_accept ∧ job.assigned_tech_id = some techId then
    (attemptAssign (declineUpdate job techId) pool 0 now).1
  else
    job

/-- One row of the technician query of `/api/book`:
`SELECT id, lat, lng FROM users WHERE role='worker' AND online=true AND state=$1`.
Coordinates are nullable columns; `none` models SQL `NULL`. -/
structure TechRow where
  id : TechId
  lat : Option Int
  lng : Option Int
deriving DecidableEq, Repr

/-- JavaScript truthiness of a nullable numeric value, as used by the filter
`t.lat && t.lng && lat && lng`: `null` / absent and the number `0` are falsy. -/
def truthy : Option Int → Bool
  | none => false
  | some v => v ≠ 0

/-- The candidate filter of `/api/book` (its "SAFE distance calc" step):
`techRows.filter(t => t.lat && t.lng && lat && lng)`, where `lat`/`lng` are
the job's own coordinates from the request body. -/
def bookFilter (jobLat jobLng : Option Int) (rows : List TechRow) : List TechRow :=
  rows.filter (fun t => truthy t.lat && truthy t.lng && truthy jobLat && truthy jobLng)

/-- The response of `/api/book` relevant to assignment: the final job row, the
technician reserved (if any), and whether the
`'Job created but no technicians available'` branch was taken. -/
structure BookResult where
  job : Job
  assignedTech : Option TechId
  noTechAvailable : Bool
deriving DecidableEq, Repr

/-- The tail of `/api/book` after the candidate list has been built and
distance-sorted: an empty list sets the job to `'pending_assignment'` and
reports no technicians available; otherwise the assignment engine runs. -/
def bookOutcome (job : Job) (candidates : List TechId) (now : Nat) : BookResult :=
  if candidates.length = 0 then
    ⟨{ job with status := .pending_assignment }, none, true⟩
  else
    let r := attemptAssign job candidates 0 now
    ⟨r.1, r.2, false⟩

/-- The disjointness property of claim C8: no technician is simultaneously in
`declined_techs` and in `assigned_tech_ids` of the same job row. -/
def DisjointTechs (j : Job) : Prop :=
  ∀ x ∈ j.declined_techs, x ∉ j.assigned_tech_ids

instance (j : Job) : Decidable (DisjointTechs j) :=
  inferInstanceAs (Decidable (∀ x ∈ j.declined_techs, x ∉ j.assigned_tech_ids))

/-- Degrees to radians, `const toRad = v => v * Math.PI / 180` inside
`distanceMeters`.  Coordinates are modelled as real numbers (the backend
computes with JavaScript doubles). -/
noncomputable def toRad (v : ℝ) : ℝ := v * Real.pi / 180

/-- JavaScript's `Math.atan2(y, x)`, the four-quadrant arctangent, on reals. -/
noncomputable def atan2 (y x : ℝ) : ℝ :=
  if 0 < x then Real.arctan (y / x)
  else if x < 0 ∧ 0 ≤ y then Real.arctan (y / x) + Real.pi
  else if x < 0 ∧ y < 0 then Real.arctan (y / x) - Real.pi
  else if x = 0 ∧ 0 < y then Real.pi / 2
  else if x = 0 ∧ y < 0 then -(Real.pi / 2)
  else 0

/-- The intermediate `a` of `distanceMeters`:
`Math.sin(dLat/2)**2 + Math.cos(toRad(lat1)) * Math.cos(toRad(lat2)) * Math.sin(dLon/2)**2`
with `dLat = toRad(lat2-lat1)` and `dLon = toRad(lon2-lon1)`. -/
noncomputable def haversineA (lat1 lon1 lat2 lon2 : ℝ) : ℝ :=
  Real.sin (toRad (lat2 - lat1) / 2) ^ 2 +
    Real.cos (toRad lat1) * Real.cos (toRad lat2) *
      Real.sin (toRad (lon2 - lon1) / 2) ^ 2

/-- `distanceMeters(lat1, lon1, lat2, lon2)`: `null`/missing coordinates give
`Number.POSITIVE_INFINITY` (the top element of `EReal`); otherwise
`R * c` with `R = 6371000` and `c = 2 * Math.atan2(Math.sqrt(a), Math.sqrt(1-a))`. -/
noncomputable def distanceMeters (lat1 lon1 lat2 lon2 : Option ℝ) : EReal :=
  match lat1, lon1, lat2, lon2 with
  | some la1, some lo1, some la2, some lo2 =>
    (((6371000 : ℝ) *
        (2 * atan2 (Real.sqrt (haversineA la1 lo1 la2 lo2))
          (Real.sqrt (1 - haversineA la1 lo1 la2 lo2))) : ℝ) : EReal)
  | _, _, _, _ => ⊤

/-- The specification's contract for the geo-distance calculator, written
from its words: the great-circle distance in meters given by the haversine
formula on a spherical Earth of radius 6 371 000 m
(`d = 2 R arcsin √h`, `h` the haversine of the central angle), and positive
infinity when either coordinate pair is missing. -/
noncomputable def haversineSpecDistance (lat1 lon1 lat2 lon2 : Option ℝ) : EReal :=
  match lat1, lon1, lat2, lon2 with
  | some la1, some lo1, some la2, some lo2 =>
    ((2 * (6371000 : ℝ) *
        Real.arcsin (Real.sqrt
          (Real.sin ((toRad la2 - toRad la1) / 2) ^ 2 +
            Real.cos (toRad la1) * Real.cos (toRad la2) *
              Real.sin ((toRad lo2 - toRad lo1) / 2) ^ 2)) : ℝ) : EReal)
  | _, _, _, _ => ⊤

/-- Any hit of the candidate scan lies at or after the start index, inside the
list, and outside both exclusion lists. -/
theorem findCandidateGo_some_spec {declined assignedIds techs : List TechId} :
    ∀ {fuel i k t}, findCandidateGo declined assignedIds techs fuel i = some (k, t) →
      i ≤ k ∧ ∃ h : k < techs.length,
        techs.get ⟨k, h⟩ = t ∧ t ∉ declined ∧ t ∉ assignedIds := by
  intro fuel
  induction fuel with
  | zero => intro i k t h; simp [findCandidateGo] at h
  | succ fuel ih =>
    intro i k t h
    rw [findCandidateGo] at h
    simp only [] at h
    split at h
    · rename_i hi
      split at h
      · rcases ih h with ⟨hik, hk, hget, hnd, hna⟩
        exact ⟨Nat.le_of_succ_le hik, hk, hget, hnd, hna⟩
      · rename_i hnot
        rw [Option.some.injEq, Prod.mk.injEq] at h
        rcases h with ⟨rfl, rfl⟩
        push_neg at hnot
        exact ⟨Nat.le_refl _, hi, rfl, hnot.1, hnot.2⟩
    · exact absurd h (by simp)

/-- `findCandidate` version of `findCandidateGo_some_spec`. -/
theorem findCandidate_some_spec {declined assignedIds techs : List TechId} {i k : Nat}
    {t : TechId} (h : findCandidate declined assignedIds techs i = some (k, t)) :
    i ≤ k ∧ ∃ hk : k < techs.length,
      techs.get ⟨k, hk⟩ = t ∧ t ∉ declined ∧ t ∉ assignedIds :=
  findCandidateGo_some_spec h

/-- If every list entry at or after the start index is declined or already
assigned, the scan finds nothing. -/
theorem findCandidateGo_none_of_all {declined assignedIds techs : List TechId} :
    ∀ {fuel i},
      (∀ k (hk : k < techs.length), i ≤ k →
        techs.get ⟨k, hk⟩ ∈ declined ∨ techs.get ⟨k, hk⟩ ∈ assignedIds) →
      findCandidateGo declined assignedIds techs fuel i = none := by
  intro fuel
  induction fuel with
  | zero => intro i _; rw [findCandidateGo]
  | succ fuel ih =>
    intro i hall
    rw [findCandidateGo]
    split
    · rename_i hi
      rw [if_pos (hall i hi (Nat.le_refl i))]
      exact ih fun k hk hik => hall k hk (Nat.le_of_succ_le hik)
    · rfl

/-- If the job is not in a reservable status, every run of the assignment
engine (the conditional update hitting zero rows at every candidate) ends by
setting the status to `'pending_assignment'` and reporting failure. -/
theorem attemptAssignGo_not_reservable {j : Job} {techs : List TechId} {now : Nat}
    (hres : reservable j.status = false) :
    ∀ fuel i, attemptAssignGo j techs now fuel i =
      ({ j with status := .pending_assignment }, none) := by
  intro fuel
  induction fuel with
  | zero => intro i; rw [attemptAssignGo]
  | succ fuel ih =>
    intro i
    rw [attemptAssignGo]
    split
    · rfl
    · split
      · rfl
      · split
        · rfl
        · rw [if_neg (by simp [hres]), ih]

/-- `attemptAssign` version of `attemptAssignGo_not_reservable`. -/
theorem attemptAssign_not_reservable {j : Job} {techs : List TechId} {i now : Nat}
    (hres : reservable j.status = false) :
    attemptAssign j techs i now = ({ j with status := .pending_assignment }, none) :=
  attemptAssignGo_not_reservable hres _ _

/-- On a reservable job the engine reserves the first eligible candidate, or
parks the job as `'pending_assignment'` when the scan is empty. -/
theorem attemptAssign_reservable {j : Job} {techs : List TechId} {i now : Nat}
    (hres : reservable j.status = true) :
    attemptAssign j techs i now =
      match findCandidate j.declined_techs j.assigned_tech_ids techs i with
      | none => ({ j with status := .pending_assignment }, none)
      | some (_, t) => (reserveUpdate j t now, some t) := by
  rw [attemptAssign]
  rcases hfuel : techs.length + 1 - i with _ | fuel
  · have hfind : findCandidate j.declined_techs j.assigned_tech_ids techs i = none := by
      have : techs.length - i = 0 := by omega
      rw [findCandidate, this, findCandidateGo]
    rw [hfind, attemptAssignGo]
  · rw [attemptAssignGo]
    split
    · rename_i hzero
      have hfind : findCandidate j.declined_techs j.assigned_tech_ids techs i = none := by
        have : techs.length - i = 0 := by omega
        rw [findCandidate, this, findCandidateGo]
      rw [hfind]
    · split
      · rename_i hle
        have hfind : findCandidate j.declined_techs j.assigned_tech_ids techs i = none := by
          have : techs.length - i = 0 := by omega
          rw [findCandidate, this, findCandidateGo]
        rw [hfind]
      · split
        · rfl
        · simp [hres]

/-- Shape of every `attemptAssign` result: either the job is merely parked as
`'pending_assignment'` with a failure report, or a candidate outside both
exclusion lists is reserved on a job that was still reservable. -/
theorem attemptAssign_shape (j : Job) (techs : List TechId) (i now : Nat) :
    attemptAssign j techs i now = ({ j with status := .pending_assignment }, none) ∨
      ∃ t, attemptAssign j techs i now = (reserveUpdate j t now, some t) ∧
        reservable j.status = true ∧ t ∉ j.declined_techs ∧
        t ∉ j.assigned_tech_ids ∧ t ∈ techs := by
  rcases hres : reservable j.status with _ | _
  · exact Or.inl (attemptAssign_not_reservable hres)
  · rw [attemptAssign_reservable hres]
    rcases hfind : findCandidate j.declined_techs j.assigned_tech_ids techs i with _ | ⟨k, t⟩
    · exact Or.inl rfl
    · rcases findCandidate_some_spec hfind with ⟨_, hk, hget, hnd, hna⟩
      exact Or.inr ⟨t, rfl, rfl, hnd, hna, hget ▸ techs.get_mem _ hk⟩

/-- The assignment engine touches only the offer/status/notification fields:
declined, assigned, worker-count, seen and acceptance columns pass through. -/
theorem attemptAssign_preserves (j : Job) (techs : List TechId) (i now : Nat) :
    (attemptAssign j techs i now).1.declined_techs = j.declined_techs ∧
    (attemptAssign j techs i now).1.assigned_tech_ids = j.assigned_tech_ids ∧
    (attemptAssign j techs i now).1.workers_needed = j.workers_needed ∧
    (attemptAssign j techs i now).1.accepted_at = j.accepted_at := by
  rcases attemptAssign_shape j techs i now with h | ⟨t, h, -, -, -, -⟩ <;>
    rw [h] <;> exact ⟨rfl, rfl, rfl, rfl⟩

/-- After a run of the engine, either no offer changed hands (status parked)
or the offer went to a technician outside the declined list. -/
theorem attemptAssign_offer_fresh (j : Job) (techs : List TechId) (i now : Nat)
    {t : TechId} (ht : t ∈ (attemptAssign j techs i now).1.declined_techs) :
    (attemptAssign j techs i now).1.status = .pending_accept →
    (attemptAssign j techs i now).1.assigned_tech_id ≠ some t := by
  rcases attemptAssign_shape j techs i now with h | ⟨u, h, -, hnd, -, -⟩ <;> rw [h] at ht ⊢
  · intro hst; exact absurd hst (by simp)
  · intro _ heq
    rw [reserveUpdate] at heq
    simp only [Option.some.injEq] at heq
    rw [reserveUpdate] at ht
    exact hnd (heq ▸ ht)

/-- Authorization failure of `/api/job/:id/respond`: a technician who is
neither the sole offeree nor among the accepted gets the 403 and the job row
is untouched. -/
theorem respond_noauth {j : Job} {t : TechId} (a : RespondAction)
    (pool : List TechId) (now : Nat)
    (h1 : j.assigned_tech_id ≠ some t) (h2 : t ∉ j.assigned_tech_ids) :
    respond j t a pool now = (j, .notAssigned) := by
  rw [respond.eq_def, if_pos ⟨h1, h2⟩]

/-- Accept branch, completion case: enough technicians have accepted, the job
is finalized. -/
theorem respond_accept_complete {j : Job} {t : TechId} (pool : List TechId) (now : Nat)
    (hauth : j.assigned_tech_id = some t ∨ t ∈ j.assigned_tech_ids)
    (hle : needThreshold j.workers_needed ≤ (acceptUpdated j t).length) :
    respond j t .accept pool now =
      ({ j with
          assigned_tech_ids := acceptUpdated j t
          status := .accepted
          accepted_at := some now
          expires_at := none }, .acceptedOk) := by
  rw [respond.eq_def, if_neg (by rintro ⟨hc1, hc2⟩; rcases hauth with h | h; exacts [hc1 h, hc2 h])]
  simp only [if_pos hle]

/-- Accept branch, incomplete case: the technician is recorded, the job is
set to the partially-filled status and the engine re-runs on the pool minus
the exclusion set. -/
theorem respond_accept_incomplete {j : Job} {t : TechId} (pool : List TechId) (now : Nat)
    (hauth : j.assigned_tech_id = some t ∨ t ∈ j.assigned_tech_ids)
    (hlt : (acceptUpdated j t).length < needThreshold j.workers_needed) :
    respond j t .accept pool now =
      ((attemptAssign
          { j with assigned_tech_ids := acceptUpdated j t, status := .partlyFilled }
          (pool.filter (fun x => x ∉ respondAcceptExclude j (acceptUpdated j t)))
          0 now).1, .acceptedOk) := by
  rw [respond.eq_def, if_neg (by rintro ⟨hc1, hc2⟩; rcases hauth with h | h; exacts [hc1 h, hc2 h])]
  simp only [if_neg (Nat.not_le_of_lt hlt)]

/-- Decline branch: the decliner is recorded, the offer cleared, and the
engine re-runs on the pool minus the decliner. -/
theorem respond_decline_eq {j : Job} {t : TechId} (pool : List TechId) (now : Nat)
    (hauth : j.assigned_tech_id = some t ∨ t ∈ j.assigned_tech_ids) :
    respond j t .decline pool now =
      ((attemptAssign (declineUpdate j t) (pool.filter (fun x => x ≠ t)) 0 now).1,
        .declinedOk) := by
  rw [respond.eq_def, if_neg (by rintro ⟨hc1, hc2⟩; rcases hauth with h | h; exacts [hc1 h, hc2 h])]

/-- Claim C1: the reservation transition is an atomic conditional update —
`attemptAssign` moves a job to `'pending_accept'` only if the job's status is
still `'created'` or `'pending_assignment'` at update time, and on success it
sets `assigned_tech_id` to the chosen candidate, `assigned_at` to the current
time, `expires_at` to the current time plus the reservation window, and
appends the candidate to `notified_techs`. -/
theorem claim_C1_reservation_conditional_update
    (j : Job) (techs : List TechId) (i now : Nat) (j' : Job) (t : TechId)
    (h : attemptAssign j techs i now = (j', some t)) :
    (j.status = .created ∨ j.status = .pending_assignment) ∧
    j' = { j with
      status := .pending_accept
      assigned_tech_id := some t
      assigned_at := some now
      expires_at := some (now + reservationWindowMs)
      notified_techs := j.notified_techs ++ [t] } := by
  rcases attemptAssign_shape j techs i now with hsh | ⟨u, hsh, hres, -, -, -⟩
  · rw [h] at hsh
    exact absurd (congrArg Prod.snd hsh) (by simp)
  · rw [h] at hsh
    obtain ⟨h1, h2⟩ := Prod.mk.injEq .. ▸ hsh
    obtain rfl : t = u := by simpa using h2
    refine ⟨?_, h1⟩
    simpa [reservable] using hres

/-- Witness for C1: a fresh single-worker job with one candidate. -/
theorem claim_C1_reservation_conditional_update_witness :
    ((bookJob 1).status = .created ∨ (bookJob 1).status = .pending_assignment) ∧
    reserveUpdate (bookJob 1) 5 100 = { bookJob 1 with
      status := .pending_accept
      assigned_tech_id := some 5
      assigned_at := some 100
      expires_at := some (100 + reservationWindowMs)
      notified_techs := (bookJob 1).notified_techs ++ [5] } :=
  claim_C1_reservation_conditional_update (bookJob 1) [5] 0 100
    (reserveUpdate (bookJob 1) 5 100) 5 (by decide)

/-- Claim C2: when the conditional reservation update affects zero rows (the
job is no longer in a reservable status), `attemptAssign` retries with the
next candidate index rather than reporting overall failure; in particular no
second offer is ever produced while one is outstanding (the run reserves
nobody). -/
theorem claim_C2_zero_row_retry
    (j : Job) (techs : List TechId) (i k now : Nat) (t : TechId)
    (hzero : reservable j.status = false)
    (_hfind : findCandidate j.declined_techs j.assigned_tech_ids techs i = some (k, t)) :
    attemptAssign j techs i now = attemptAssign j techs (k + 1) now ∧
    (attemptAssign j techs i now).2 = none := by
  rw [attemptAssign_not_reservable hzero, attemptAssign_not_reservable hzero]
  exact ⟨rfl, rfl⟩

/-- Witness for C2: a job already reserved for technician 5 while candidate 7
is scanned. -/
theorem claim_C2_zero_row_retry_witness :
    attemptAssign (reserveUpdate (bookJob 1) 5 100) [7] 0 200 =
      attemptAssign (reserveUpdate (bookJob 1) 5 100) [7] 1 200 ∧
    (attemptAssign (reserveUpdate (bookJob 1) 5 100) [7] 0 200).2 = none :=
  claim_C2_zero_row_retry (reserveUpdate (bookJob 1) 5 100) [7] 0 0 200 7
    (by decide) (by decide)

/-- Claim C6: if the ranked candidate list is empty, the start index is beyond
its end, or every remaining candidate is already declined or already assigned,
`attemptAssign` sets the job to `'pending_assignment'` and returns a negative
result.  (The model is a total function, so the no-technician outcome indeed
never raises.) -/
theorem claim_C6_exhaustion
    (j : Job) (techs : List TechId) (i now : Nat)
    (h : techs = [] ∨ techs.length ≤ i ∨
      ∀ k (hk : k < techs.length), i ≤ k →
        techs.get ⟨k, hk⟩ ∈ j.declined_techs ∨ techs.get ⟨k, hk⟩ ∈ j.assigned_tech_ids) :
    attemptAssign j techs i now = ({ j with status := .pending_assignment }, none) := by
  have hfind : findCandidate j.declined_techs j.assigned_tech_ids techs i = none := by
    rcases h with rfl | h | h
    · have h0 : ([] : List TechId).length - i = 0 := by simp
      rw [findCandidate, h0, findCandidateGo]
    · rw [findCandidate, Nat.sub_eq_zero_of_le h, findCandidateGo]
    · exact findCandidateGo_none_of_all h
  rcases hres : reservable j.status with _ | _
  · exact attemptAssign_not_reservable hres
  · rw [attemptAssign_reservable hres, hfind]

/-- Witness for C6: the only candidate has already declined. -/
theorem claim_C6_exhaustion_witness :
    attemptAssign { bookJob 1 with declined_techs := [4] } [4] 0 50 =
      ({ { bookJob 1 with declined_techs := [4] } with status := .pending_assignment },
        none) :=
  claim_C6_exhaustion { bookJob 1 with declined_techs := [4] } [4] 0 50
    (Or.inr (Or.inr (by decide)))

/-- Claim C3 is false as stated: a technician can be in the accepted set and
the declined set of the same job at the same time.  Reachable run: a
two-worker job is booked with candidates 1 and 2 and reserved for 1;
technician 1 accepts (entering `assigned_tech_ids`); technician 1 then sends
a decline, which the handler authorizes because 1 is in `assigned_tech_ids`,
appending 1 to `declined_techs` without removing it from the accepted set. -/
theorem claim_C3_counterexample :
    1 ∈ ((respond
        (respond ((attemptAssign (bookJob 2) [1, 2] 0 0).1) 1 .accept [1, 2] 10).1
        1 .decline [1, 2] 20).1).assigned_tech_ids ∧
    1 ∈ ((respond
        (respond ((attemptAssign (bookJob 2) [1, 2] 0 0).1) 1 .accept [1, 2] 10).1
        1 .decline [1, 2] 20).1).declined_techs := by
  decide

/-- Claim C3 amended: the engine never offers a job to a technician already
in `declined_techs` or `assigned_tech_ids`; the timeout callback records the
non-responder in `declined_techs`; and no core operation ever removes a
technician from `declined_techs` (so a declined technician is never offered
again).  The "at most one of offered/accepted/declined" part survives only
as offered-disjoint-from-both: an accepted technician who later declines is
in both of the other two sets (see the counterexample). -/
theorem claim_C3_amended
    (j : Job) (techs pool : List TechId) (i now : Nat) (t r : TechId) :
    (∀ u, (attemptAssign j techs i now).2 = some u →
      u ∉ j.declined_techs ∧ u ∉ j.assigned_tech_ids) ∧
    (j.status = .pending_accept → j.assigned_tech_id = some r →
      (timeoutFire j r pool now).declined_techs = j.declined_techs ++ [r]) ∧
    (t ∈ j.declined_techs → ∀ a : RespondAction,
      t ∈ (respond j r a pool now).1.declined_techs ∧
      t ∈ (timeoutFire j r pool now).declined_techs) := by
  refine ⟨?_, ?_, ?_⟩
  · intro u hu
    rcases attemptAssign_shape j techs i now with hsh | ⟨v, hsh, -, hnd, hna, -⟩
    · rw [hsh] at hu; exact absurd hu (by simp)
    · rw [hsh] at hu
      obtain rfl : v = u := by simpa using hu
      exact ⟨hnd, hna⟩
  · intro hst hoff
    rw [timeoutFire, if_pos ⟨hst, hoff⟩]
    rw [(attemptAssign_preserves (declineUpdate j r) pool 0 now).1]
    rfl
  · intro ht a
    constructor
    · by_cases hc : j.assigned_tech_id ≠ some r ∧ r ∉ j.assigned_tech_ids
      · rw [respond_noauth a pool now hc.1 hc.2]; exact ht
      · have hauth : j.assigned_tech_id = some r ∨ r ∈ j.assigned_tech_ids := by
          rcases not_and_or.mp hc with h | h
          · exact Or.inl (not_ne_iff.mp h)
          · exact Or.inr (not_not.mp h)
        cases a with
        | accept =>
          rcases le_or_lt (needThreshold j.workers_needed) ((acceptUpdated j r).length)
            with hle | hlt
          · rw [respond_accept_complete pool now hauth hle]; exact ht
          · rw [respond_accept_incomplete pool now hauth hlt]
            rw [(attemptAssign_preserves _ _ 0 now).1]
            exact ht
        | decline =>
          rw [respond_decline_eq pool now hauth]
          rw [(attemptAssign_preserves _ _ 0 now).1]
          exact List.mem_append_left _ ht
    · rw [timeoutFire]
      split
      · rw [(attemptAssign_preserves _ _ 0 now).1]
        exact List.mem_append_left _ ht
      · exact ht

/-- Witness for the amended C3: a job reserved for technician 5 with
technician 9 already declined. -/
theorem claim_C3_amended_witness :
    (timeoutFire (reserveUpdate { bookJob 1 with declined_techs := [9] } 5 0)
        5 [7] 10).declined_techs =
      (reserveUpdate { bookJob 1 with declined_techs := [9] } 5 0).declined_techs ++ [5] ∧
    9 ∈ (respond (reserveUpdate { bookJob 1 with declined_techs := [9] } 5 0)
        5 .decline [7] 10).1.declined_techs :=
  ⟨(claim_C3_amended (reserveUpdate { bookJob 1 with declined_techs := [9] } 5 0)
      [7] [7] 0 10 9 5).2.1 (by decide) (by decide),
    ((claim_C3_amended (reserveUpdate { bookJob 1 with declined_techs := [9] } 5 0)
      [7] [7] 0 10 9 5).2.2 (by decide) .decline).1⟩

/-- Claim C4 is false in its exclusion-set part: the accept branch excludes
only `assigned_tech_ids` (before and after the append) and `declined_techs`
from the top-up round — technicians that are merely notified are not
excluded.  Reachable run with ids 3 and 4 (two-worker job): book reserves 3;
3 accepts (`assigned_tech_ids = [3]`); 3 declines, so the engine reserves 4
(now `notified_techs = [3, 4]`); 3 accepts again — the accept goes through,
the job is still short of workers (so the top-up round runs), yet notified
technician 4 passes the exclusion filter into the round's candidate list. -/
theorem claim_C4_counterexample :
    4 ∈ ((respond
        (respond ((attemptAssign (bookJob 2) [3, 4] 0 0).1) 3 .accept [3, 4] 10).1
        3 .decline [3, 4] 20).1).notified_techs ∧
    (respond (respond
        (respond ((attemptAssign (bookJob 2) [3, 4] 0 0).1) 3 .accept [3, 4] 10).1
        3 .decline [3, 4] 20).1 3 .accept [3, 4] 30).2 = .acceptedOk ∧
    (acceptUpdated ((respond
        (respond ((attemptAssign (bookJob 2) [3, 4] 0 0).1) 3 .accept [3, 4] 10).1
        3 .decline [3, 4] 20).1) 3).length <
      needThreshold ((respond
        (respond ((attemptAssign (bookJob 2) [3, 4] 0 0).1) 3 .accept [3, 4] 10).1
        3 .decline [3, 4] 20).1).workers_needed ∧
    4 ∈ [3, 4].filter (fun x =>
      x ∉ respondAcceptExclude
        ((respond
          (respond ((attemptAssign (bookJob 2) [3, 4] 0 0).1) 3 .accept [3, 4] 10).1
          3 .decline [3, 4] 20).1)
        (acceptUpdated ((respond
          (respond ((attemptAssign (bookJob 2) [3, 4] 0 0).1) 3 .accept [3, 4] 10).1
          3 .decline [3, 4] 20).1) 3)) := by
  decide

/-- Claim C4 amended: on accept the technician is appended to
`assigned_tech_ids` (if absent); the status becomes `'accepted'` exactly when
the updated list reaches `workers_needed`; otherwise the status is set to the
partially-filled state and a new engine round is triggered whose exclusion
set covers all declined and all accepted technicians (previously accepted and
now-accepted) — but not, in general, all notified ones. -/
theorem claim_C4_amended (j : Job) (t : TechId) (pool : List TechId) (now : Nat)
    (hauth : j.assigned_tech_id = some t ∨ t ∈ j.assigned_tech_ids) :
    (respond j t .accept pool now).2 = .acceptedOk ∧
    (respond j t .accept pool now).1.assigned_tech_ids = acceptUpdated j t ∧
    (t ∉ j.assigned_tech_ids → acceptUpdated j t = j.assigned_tech_ids ++ [t]) ∧
    (needThreshold j.workers_needed ≤ (acceptUpdated j t).length →
      (respond j t .accept pool now).1.status = .accepted ∧
      (respond j t .accept pool now).1.accepted_at = some now ∧
      (respond j t .accept pool now).1.expires_at = none) ∧
    ((acceptUpdated j t).length < needThreshold j.workers_needed →
      (respond j t .accept pool now).1 =
        (attemptAssign
          { j with assigned_tech_ids := acceptUpdated j t, status := .partlyFilled }
          (pool.filter (fun x => x ∉ respondAcceptExclude j (acceptUpdated j t)))
          0 now).1 ∧
      ∀ x ∈ pool.filter (fun x => x ∉ respondAcceptExclude j (acceptUpdated j t)),
        x ∉ j.declined_techs ∧ x ∉ acceptUpdated j t) := by
  have hmemfilter : ∀ x ∈ pool.filter
      (fun x => x ∉ respondAcceptExclude j (acceptUpdated j t)),
      x ∉ j.declined_techs ∧ x ∉ acceptUpdated j t := by
    intro x hx
    rw [List.mem_filter] at hx
    have hne : x ∉ respondAcceptExclude j (acceptUpdated j t) := by
      simpa using hx.2
    rw [respondAcceptExclude] at hne
    simp only [List.mem_append, not_or] at hne
    exact ⟨hne.1.2, hne.2⟩
  have hupd : t ∉ j.assigned_tech_ids → acceptUpdated j t = j.assigned_tech_ids ++ [t] := by
    intro h; rw [acceptUpdated, if_neg h]
  rcases le_or_lt (needThreshold j.workers_needed) ((acceptUpdated j t).length)
    with hle | hlt
  · rw [respond_accept_complete pool now hauth hle]
    exact ⟨rfl, rfl, hupd, fun _ => ⟨rfl, rfl, rfl⟩, fun hlt => absurd hle (by omega)⟩
  · rw [respond_accept_incomplete pool now hauth hlt]
    refine ⟨rfl, ?_, hupd, fun hle => absurd hle (by omega), fun _ => ⟨rfl, hmemfilter⟩⟩
    exact (attemptAssign_preserves _ _ 0 now).2.1

/-- Witness for the amended C4: a two-worker job reserved for technician 5
accepting its first technician. -/
theorem claim_C4_amended_witness :
    (respond (reserveUpdate (bookJob 2) 5 0) 5 .accept [6] 10).2 = .acceptedOk ∧
    (respond (reserveUpdate (bookJob 2) 5 0) 5 .accept [6] 10).1.assigned_tech_ids =
      acceptUpdated (reserveUpdate (bookJob 2) 5 0) 5 :=
  ⟨(claim_C4_amended (reserveUpdate (bookJob 2) 5 0) 5 [6] 10 (Or.inl (by decide))).1,
    (claim_C4_amended (reserveUpdate (bookJob 2) 5 0) 5 [6] 10 (Or.inl (by decide))).2.1⟩

/-- After the shared release-and-retry step (`declineUpdate` followed by a
fresh engine round), the released technician is recorded exactly once, is not
the new offeree, and the accepted set is untouched. -/
theorem declineRound_fresh (j : Job) (t : TechId) (pool : List TechId) (now : Nat)
    (hnd : t ∉ j.declined_techs) :
    (attemptAssign (declineUpdate j t) pool 0 now).1.assigned_tech_id ≠ some t ∧
    (attemptAssign (declineUpdate j t) pool 0 now).1.declined_techs.count t = 1 ∧
    (attemptAssign (declineUpdate j t) pool 0 now).1.declined_techs =
      j.declined_techs ++ [t] ∧
    (attemptAssign (declineUpdate j t) pool 0 now).1.assigned_tech_ids =
      j.assigned_tech_ids := by
  have hdecl : (attemptAssign (declineUpdate j t) pool 0 now).1.declined_techs =
      j.declined_techs ++ [t] :=
    (attemptAssign_preserves (declineUpdate j t) pool 0 now).1
  have hassigned : (attemptAssign (declineUpdate j t) pool 0 now).1.assigned_tech_ids =
      j.assigned_tech_ids :=
    (attemptAssign_preserves (declineUpdate j t) pool 0 now).2.1
  refine ⟨?_, ?_, hdecl, hassigned⟩
  · rcases attemptAssign_shape (declineUpdate j t) pool 0 now with h | ⟨u, h, -, hnd', -, -⟩
    · rw [h]; simp [declineUpdate]
    · rw [h]
      simp only [reserveUpdate, ne_eq, Option.some.injEq]
      rintro rfl
      exact hnd' (List.mem_append_right _ (by simp))
  · rw [hdecl]
    simp [List.count_append, List.count_eq_zero.mpr hnd]

/-- Claim C5: the deferred timeout callback is idempotent against an
already-progressed job — it performs the decline transition only if the job
is still `'pending_accept'` for the same technician and is a no-op otherwise;
when a decline and a timeout race for the same offer (in either order),
exactly one decline of that technician is recorded, and the second event
leaves the job unchanged (it is either a guarded no-op or a 403). -/
theorem claim_C5_timeout_idempotent (j : Job) (t : TechId)
    (pool pool2 : List TechId) (now now2 : Nat)
    (hst : j.status = .pending_accept) (hoff : j.assigned_tech_id = some t)
    (hnd : t ∉ j.declined_techs) (hna : t ∉ j.assigned_tech_ids) :
    (∀ (j2 : Job) (pool3 : List TechId) (now3 : Nat),
      ¬ (j2.status = .pending_accept ∧ j2.assigned_tech_id = some t) →
      timeoutFire j2 t pool3 now3 = j2) ∧
    (timeoutFire (respond j t .decline pool now).1 t pool2 now2 =
        (respond j t .decline pool now).1 ∧
      ((respond j t .decline pool now).1).declined_techs.count t = 1) ∧
    (respond (timeoutFire j t pool now) t .decline pool2 now2 =
        (timeoutFire j t pool now, .notAssigned) ∧
      (timeoutFire j t pool now).declined_techs.count t = 1) := by
  have hauth : j.assigned_tech_id = some t ∨ t ∈ j.assigned_tech_ids := Or.inl hoff
  have hnoop : ∀ (j2 : Job) (pool3 : List TechId) (now3 : Nat),
      ¬ (j2.status = .pending_accept ∧ j2.assigned_tech_id = some t) →
      timeoutFire j2 t pool3 now3 = j2 := by
    intro j2 pool3 now3 hg
    rw [timeoutFire, if_neg hg]
  have hjd : (respond j t .decline pool now).1 =
      (attemptAssign (declineUpdate j t) (pool.filter (fun x => x ≠ t)) 0 now).1 := by
    rw [respond_decline_eq pool now hauth]
  have hjt : timeoutFire j t pool now =
      (attemptAssign (declineUpdate j t) pool 0 now).1 := by
    rw [timeoutFire, if_pos ⟨hst, hoff⟩]
  obtain ⟨hfresh1, hcount1, -, -⟩ :=
    declineRound_fresh j t (pool.filter (fun x => x ≠ t)) now hnd
  obtain ⟨hfresh2, hcount2, -, hassigned2⟩ := declineRound_fresh j t pool now hnd
  refine ⟨hnoop, ⟨?_, ?_⟩, ⟨?_, ?_⟩⟩
  · exact hnoop _ _ _ (by rw [hjd]; rintro ⟨-, h2⟩; exact hfresh1 h2)
  · rw [hjd]; exact hcount1
  · rw [hjt]
    exact respond_noauth .decline pool2 now2 hfresh2 (hassigned2 ▸ hna)
  · rw [hjt]; exact hcount2

/-- Witness for C5: a fresh job reserved for technician 5. -/
theorem claim_C5_timeout_idempotent_witness :
    (timeoutFire (respond (reserveUpdate (bookJob 1) 5 0) 5 .decline [6] 10).1
        5 [6] 20 =
      (respond (reserveUpdate (bookJob 1) 5 0) 5 .decline [6] 10).1 ∧
    ((respond (reserveUpdate (bookJob 1) 5 0) 5 .decline [6] 10).1).declined_techs.count 5
      = 1) ∧
    (respond (timeoutFire (reserveUpdate (bookJob 1) 5 0) 5 [6] 10) 5 .decline [6] 20 =
        (timeoutFire (reserveUpdate (bookJob 1) 5 0) 5 [6] 10, .notAssigned) ∧
      (timeoutFire (reserveUpdate (bookJob 1) 5 0) 5 [6] 10).declined_techs.count 5 = 1) :=
  ⟨(claim_C5_timeout_idempotent (reserveUpdate (bookJob 1) 5 0) 5 [6] [6] 10 20
      (by decide) (by decide) (by decide) (by decide)).2.1,
    (claim_C5_timeout_idempotent (reserveUpdate (bookJob 1) 5 0) 5 [6] [6] 10 20
      (by decide) (by decide) (by decide) (by decide)).2.2⟩

/-- Claim C7: accept is idempotent — a second accept by the same technician
neither adds a second entry to `assigned_tech_ids` nor changes the status
reached by the first accept (including its triggered re-assignment round). -/
theorem claim_C7_accept_idempotent (j : Job) (t : TechId)
    (pool pool2 : List TechId) (now now2 : Nat)
    (hauth : j.assigned_tech_id = some t ∨ t ∈ j.assigned_tech_ids) :
    (respond (respond j t .accept pool now).1 t .accept pool2 now2).1.assigned_tech_ids =
      (respond j t .accept pool now).1.assigned_tech_ids ∧
    (respond (respond j t .accept pool now).1 t .accept pool2 now2).1.status =
      (respond j t .accept pool now).1.status ∧
    (t ∉ j.assigned_tech_ids →
      (respond j t .accept pool now).1.assigned_tech_ids = j.assigned_tech_ids ++ [t]) := by
  have htu : t ∈ acceptUpdated j t := by
    rw [acceptUpdated]
    split
    · assumption
    · exact List.mem_append_right _ (by simp)
  rcases le_or_lt (needThreshold j.workers_needed) ((acceptUpdated j t).length)
    with hle | hlt
  · have hr1 : (respond j t .accept pool now).1 =
        { j with
          assigned_tech_ids := acceptUpdated j t
          status := .accepted
          accepted_at := some now
          expires_at := none } := by
      rw [respond_accept_complete pool now hauth hle]
    have hupd2 : acceptUpdated (respond j t .accept pool now).1 t = acceptUpdated j t := by
      rw [hr1, acceptUpdated, if_pos htu]
    have hauth2 : (respond j t .accept pool now).1.assigned_tech_id = some t ∨
        t ∈ (respond j t .accept pool now).1.assigned_tech_ids := by
      right; rw [hr1]; exact htu
    have hle2 : needThreshold (respond j t .accept pool now).1.workers_needed ≤
        (acceptUpdated (respond j t .accept pool now).1 t).length := by
      rw [hupd2, hr1]; exact hle
    have hr2 : (respond (respond j t .accept pool now).1 t .accept pool2 now2).1 =
        { (respond j t .accept pool now).1 with
          assigned_tech_ids := acceptUpdated j t
          status := .accepted
          accepted_at := some now2
          expires_at := none } := by
      rw [respond_accept_complete pool2 now2 hauth2 hle2, hupd2]
    refine ⟨?_, ?_, ?_⟩
    · rw [hr2, hr1]
    · rw [hr2, hr1]
    · intro h; rw [hr1, acceptUpdated, if_neg h]
  · have hpark1 : attemptAssign
        { j with assigned_tech_ids := acceptUpdated j t, status := .partlyFilled }
        (pool.filter (fun x => x ∉ respondAcceptExclude j (acceptUpdated j t))) 0 now =
        ({ j with assigned_tech_ids := acceptUpdated j t, status := .pending_assignment },
          none) :=
      attemptAssign_not_reservable rfl
    have hr1 : (respond j t .accept pool now).1 =
        { j with
          assigned_tech_ids := acceptUpdated j t
          status := .pending_assignment } := by
      rw [respond_accept_incomplete pool now hauth hlt, hpark1]
    have hupd2 : acceptUpdated (respond j t .accept pool now).1 t = acceptUpdated j t := by
      rw [hr1, acceptUpdated, if_pos htu]
    have hauth2 : (respond j t .accept pool now).1.assigned_tech_id = some t ∨
        t ∈ (respond j t .accept pool now).1.assigned_tech_ids := by
      right; rw [hr1]; exact htu
    have hlt2 : (acceptUpdated (respond j t .accept pool now).1 t).length <
        needThreshold (respond j t .accept pool now).1.workers_needed := by
      rw [hupd2, hr1]; exact hlt
    have hpark2 : attemptAssign
        { (respond j t .accept pool now).1 with
          assigned_tech_ids := acceptUpdated j t, status := .partlyFilled }
        (pool2.filter (fun x =>
          x ∉ respondAcceptExclude (respond j t .accept pool now).1 (acceptUpdated j t)))
        0 now2 =
        ({ (respond j t .accept pool now).1 with
            assigned_tech_ids := acceptUpdated j t, status := .pending_assignment },
          none) :=
      attemptAssign_not_reservable rfl
    have hr2 : (respond (respond j t .accept pool now).1 t .accept pool2 now2).1 =
        { (respond j t .accept pool now).1 with
          assigned_tech_ids := acceptUpdated j t
          status := .pending_assignment } := by
      rw [respond_accept_incomplete pool2 now2 hauth2 hlt2, hupd2, hpark2]
    refine ⟨?_, ?_, ?_⟩
    · rw [hr2, hr1]
    · rw [hr2, hr1]
    · intro h; rw [hr1, acceptUpdated, if_neg h]

/-- Witness for C7: second accept on a two-worker job. -/
theorem claim_C7_accept_idempotent_witness :
    (respond (respond (reserveUpdate (bookJob 2) 5 0) 5 .accept [6] 10).1
        5 .accept [6] 20).1.assigned_tech_ids =
      (respond (reserveUpdate (bookJob 2) 5 0) 5 .accept [6] 10).1.assigned_tech_ids ∧
    (respond (respond (reserveUpdate (bookJob 2) 5 0) 5 .accept [6] 10).1
        5 .accept [6] 20).1.status =
      (respond (reserveUpdate (bookJob 2) 5 0) 5 .accept [6] 10).1.status ∧
    (5 ∉ (reserveUpdate (bookJob 2) 5 0).assigned_tech_ids →
      (respond (reserveUpdate (bookJob 2) 5 0) 5 .accept [6] 10).1.assigned_tech_ids =
        (reserveUpdate (bookJob 2) 5 0).assigned_tech_ids ++ [5]) :=
  claim_C7_accept_idempotent (reserveUpdate (bookJob 2) 5 0) 5 [6] [6] 10 20
    (Or.inl (by decide))

/-- Claim C8 is false as stated: `declined_techs` and `assigned_tech_ids` are
not always disjoint.  Reachable run (two-worker job, candidates 7 and 8):
book reserves 7; 7 accepts, entering `assigned_tech_ids`; 7 then declines —
authorized through `assigned_tech_ids` — and is appended to `declined_techs`
while remaining in `assigned_tech_ids`. -/
theorem claim_C8_counterexample :
    ¬ DisjointTechs ((respond
        (respond ((attemptAssign (bookJob 2) [7, 8] 0 0).1) 7 .accept [7, 8] 10).1
        7 .decline [7, 8] 20).1) := by
  decide

/-- Claim C8 amended: every core operation preserves disjointness of
`declined_techs` and `assigned_tech_ids` except a respond by a technician
already recorded in the other set — the engine touches neither set, the
timeout callback preserves disjointness when the expiring offeree is not
already accepted, accept preserves it when the accepter has not declined, and
decline preserves it when the decliner has not accepted. -/
theorem claim_C8_amended (j : Job) (techs pool : List TechId) (t : TechId) (i now : Nat)
    (hd : DisjointTechs j) :
    DisjointTechs (attemptAssign j techs i now).1 ∧
    (t ∉ j.assigned_tech_ids → DisjointTechs (timeoutFire j t pool now)) ∧
    (t ∉ j.declined_techs → DisjointTechs (respond j t .accept pool now).1) ∧
    (t ∉ j.assigned_tech_ids → DisjointTechs (respond j t .decline pool now).1) := by
  have hdecl : ∀ (j2 : Job), j2.declined_techs = j.declined_techs ++ [t] →
      j2.assigned_tech_ids = j.assigned_tech_ids → t ∉ j.assigned_tech_ids →
      DisjointTechs j2 := by
    intro j2 h1 h2 hna x hx
    rw [h1, List.mem_append] at hx
    rw [h2]
    rcases hx with hx | hx
    · exact hd x hx
    · obtain rfl : x = t := by simpa using hx
      exact hna
  refine ⟨?_, ?_, ?_, ?_⟩
  · intro x hx
    rw [(attemptAssign_preserves j techs i now).1] at hx
    rw [(attemptAssign_preserves j techs i now).2.1]
    exact hd x hx
  · intro hna
    rw [timeoutFire]
    split
    · exact hdecl _ (attemptAssign_preserves _ _ 0 now).1
        (attemptAssign_preserves _ _ 0 now).2.1 hna
    · exact hd
  · intro hnd
    by_cases hc : j.assigned_tech_id ≠ some t ∧ t ∉ j.assigned_tech_ids
    · rw [respond_noauth .accept pool now hc.1 hc.2]; exact hd
    · have hauth : j.assigned_tech_id = some t ∨ t ∈ j.assigned_tech_ids := by
        rcases not_and_or.mp hc with h | h
        · exact Or.inl (not_ne_iff.mp h)
        · exact Or.inr (not_not.mp h)
      have hdisj : ∀ (j2 : Job), j2.declined_techs = j.declined_techs →
          j2.assigned_tech_ids = acceptUpdated j t → DisjointTechs j2 := by
        intro j2 h1 h2 x hx
        rw [h1] at hx
        rw [h2, acceptUpdated]
        split
        · exact hd x hx
        · rw [List.mem_append]
          rintro (hmem | hmem)
          · exact hd x hx hmem
          · obtain rfl : x = t := by simpa using hmem
            exact hnd hx
      rcases le_or_lt (needThreshold j.workers_needed) ((acceptUpdated j t).length)
        with hle | hlt
      · rw [respond_accept_complete pool now hauth hle]
        exact hdisj _ rfl rfl
      · rw [respond_accept_incomplete pool now hauth hlt]
        exact hdisj _ (attemptAssign_preserves _ _ 0 now).1
          (attemptAssign_preserves _ _ 0 now).2.1
  · intro hna
    by_cases hc : j.assigned_tech_id ≠ some t ∧ t ∉ j.assigned_tech_ids
    · rw [respond_noauth .decline pool now hc.1 hc.2]; exact hd
    · have hauth : j.assigned_tech_id = some t ∨ t ∈ j.assigned_tech_ids := by
        rcases not_and_or.mp hc with h | h
        · exact Or.inl (not_ne_iff.mp h)
        · exact Or.inr (not_not.mp h)
      rw [respond_decline_eq pool now hauth]
      exact hdecl _ (attemptAssign_preserves _ _ 0 now).1
        (attemptAssign_preserves _ _ 0 now).2.1 hna

/-- Witness for the amended C8: the decline of the sole offeree of a fresh
reserved job keeps the two sets disjoint. -/
theorem claim_C8_amended_witness :
    DisjointTechs (respond (reserveUpdate (bookJob 1) 5 0) 5 .decline [6] 10).1 :=
  (claim_C8_amended (reserveUpdate (bookJob 1) 5 0) [6] [6] 5 0 10
    (by decide)).2.2.2 (by decide)

/-- For latitudes within ±90°, the haversine `a`-term lies in `[0, 1]`. -/
theorem haversineA_bounds {la1 la2 : ℝ} (lo1 lo2 : ℝ)
    (h1 : la1 ∈ Set.Icc (-90 : ℝ) 90) (h2 : la2 ∈ Set.Icc (-90 : ℝ) 90) :
    0 ≤ haversineA la1 lo1 la2 lo2 ∧ haversineA la1 lo1 la2 lo2 ≤ 1 := by
  obtain ⟨h1l, h1r⟩ := h1
  obtain ⟨h2l, h2r⟩ := h2
  have hpi := Real.pi_pos
  have hp1 : -(Real.pi / 2) ≤ toRad la1 ∧ toRad la1 ≤ Real.pi / 2 := by
    rw [toRad]; constructor <;> nlinarith
  have hp2 : -(Real.pi / 2) ≤ toRad la2 ∧ toRad la2 ≤ Real.pi / 2 := by
    rw [toRad]; constructor <;> nlinarith
  have hcp : 0 ≤ Real.cos (toRad la1) := Real.cos_nonneg_of_mem_Icc ⟨hp1.1, hp1.2⟩
  have hcq : 0 ≤ Real.cos (toRad la2) := Real.cos_nonneg_of_mem_Icc ⟨hp2.1, hp2.2⟩
  have hsB : Real.sin (toRad (lo2 - lo1) / 2) ^ 2 ≤ 1 := Real.sin_sq_le_one _
  have h2A : 2 * (toRad (la2 - la1) / 2) = toRad la2 - toRad la1 := by
    simp only [toRad]; ring
  have hsinA : Real.sin (toRad (la2 - la1) / 2) ^ 2 =
      1 / 2 - Real.cos (toRad la2 - toRad la1) / 2 := by
    rw [Real.sin_sq, Real.cos_sq, h2A]; ring
  have hprod : Real.cos (toRad la1) * Real.cos (toRad la2) =
      (Real.cos (toRad la2 - toRad la1) + Real.cos (toRad la2 + toRad la1)) / 2 := by
    rw [Real.cos_sub, Real.cos_add]; ring
  have hcos1 : Real.cos (toRad la2 + toRad la1) ≤ 1 := Real.cos_le_one _
  constructor
  · rw [haversineA]
    have hterm : 0 ≤ Real.cos (toRad la1) * Real.cos (toRad la2) *
        Real.sin (toRad (lo2 - lo1) / 2) ^ 2 :=
      mul_nonneg (mul_nonneg hcp hcq) (sq_nonneg _)
    nlinarith [sq_nonneg (Real.sin (toRad (la2 - la1) / 2))]
  · rw [haversineA]
    nlinarith [mul_le_mul_of_nonneg_left hsB (mul_nonneg hcp hcq),
      sq_nonneg (Real.sin (toRad (lo2 - lo1) / 2))]

/-- For `a ∈ [0, 1]`, the code's `2-argument arctangent` form of the central
angle agrees with the arcsine form of the haversine formula. -/
theorem atan2_sqrt_eq_arcsin {a : ℝ} (h0 : 0 ≤ a) (h1 : a ≤ 1) :
    atan2 (Real.sqrt a) (Real.sqrt (1 - a)) = Real.arcsin (Real.sqrt a) := by
  rcases lt_or_eq_of_le h1 with hlt | heq
  · have hc : 0 < Real.sqrt (1 - a) := Real.sqrt_pos.mpr (by linarith)
    rw [atan2, if_pos hc]
    have hs1 : Real.sqrt a < 1 := (Real.sqrt_lt' one_pos).mpr (by simpa using hlt)
    have hmem : Real.sqrt a ∈ Set.Ioo (-(1 : ℝ)) 1 :=
      ⟨lt_of_lt_of_le (by norm_num) (Real.sqrt_nonneg a), hs1⟩
    rw [Real.arcsin_eq_arctan hmem, Real.sq_sqrt h0]
  · subst heq
    rw [show (1 : ℝ) - 1 = 0 by ring, Real.sqrt_zero, Real.sqrt_one, Real.arcsin_one]
    rw [atan2, if_neg (lt_irrefl 0), if_neg (by simp), if_neg (by simp),
      if_pos ⟨rfl, one_pos⟩]

/-- Claim C9: `distanceMeters` is pure and total (it is a function); with all
four coordinates present and latitudes in the valid ±90° range it computes
exactly the haversine great-circle distance on a sphere of radius
6 371 000 m, and with any coordinate missing it returns positive infinity. -/
theorem claim_C9_distance_haversine (lat1 lon1 lat2 lon2 : Option ℝ) (la1 la2 : ℝ) :
    (lat1 = none ∨ lon1 = none ∨ lat2 = none ∨ lon2 = none →
      distanceMeters lat1 lon1 lat2 lon2 = ⊤) ∧
    (la1 ∈ Set.Icc (-90 : ℝ) 90 → la2 ∈ Set.Icc (-90 : ℝ) 90 →
      ∀ lo1 lo2 : ℝ,
        distanceMeters (some la1) (some lo1) (some la2) (some lo2) =
          haversineSpecDistance (some la1) (some lo1) (some la2) (some lo2)) := by
  constructor
  · intro h
    rcases lat1 with _ | x1
    · rfl
    rcases lon1 with _ | y1
    · rfl
    rcases lat2 with _ | x2
    · rfl
    rcases lon2 with _ | y2
    · rfl
    rcases h with h | h | h | h <;> exact absurd h (by simp)
  · intro h1 h2 lo1 lo2
    obtain ⟨ha0, ha1⟩ := haversineA_bounds lo1 lo2 h1 h2
    have hA : Real.sin ((toRad la2 - toRad la1) / 2) ^ 2 +
        Real.cos (toRad la1) * Real.cos (toRad la2) *
          Real.sin ((toRad lo2 - toRad lo1) / 2) ^ 2 = haversineA la1 lo1 la2 lo2 := by
      rw [haversineA]
      have e1 : (toRad la2 - toRad la1) / 2 = toRad (la2 - la1) / 2 := by
        simp only [toRad]; ring
      have e2 : (toRad lo2 - toRad lo1) / 2 = toRad (lo2 - lo1) / 2 := by
        simp only [toRad]; ring
      rw [e1, e2]
    rw [distanceMeters, haversineSpecDistance, hA,
      atan2_sqrt_eq_arcsin ha0 ha1]
    exact congrArg _ (by ring)

/-- Witness for C9: all-missing coordinates give infinity, and the equatorial
origin pair satisfies the range hypotheses. -/
theorem claim_C9_distance_haversine_witness :
    distanceMeters none none none none = ⊤ ∧
    distanceMeters (some 0) (some 0) (some 0) (some 0) =
      haversineSpecDistance (some 0) (some 0) (some 0) (some 0) :=
  ⟨(claim_C9_distance_haversine none none none none 0 0).1 (Or.inl rfl),
    (claim_C9_distance_haversine none none none none 0 0).2
      (by constructor <;> norm_num) (by constructor <;> norm_num) 0 0⟩

/-- Claim C10: the booking candidate list is filtered by JavaScript
truthiness of all four coordinates — a technician whose stored latitude or
longitude is absent, `null`, or exactly `0` is excluded, and if the job's own
latitude or longitude is absent, `null`, or exactly `0` every technician is
excluded, so the booking immediately parks the job as
`'pending_assignment'` and reports no technicians available even when online
technicians with known locations exist.  `sorted` is the distance-sorted
candidate list (any permutation of the filter's output). -/
theorem claim_C10_truthiness_filter
    (jobLat jobLng : Option Int) (rows sorted : List TechRow) (w now : Nat)
    (hperm : List.Perm sorted (bookFilter jobLat jobLng rows)) :
    (∀ t ∈ rows, truthy t.lat = false ∨ truthy t.lng = false → t ∉ sorted) ∧
    (truthy jobLat = false ∨ truthy jobLng = false →
      bookOutcome (bookJob w) (sorted.map TechRow.id) now =
        ⟨{ bookJob w with status := .pending_assignment }, none, true⟩) := by
  constructor
  · intro t _ hf hmem
    have hmem' : t ∈ bookFilter jobLat jobLng rows := hperm.mem_iff.mp hmem
    rw [bookFilter, List.mem_filter] at hmem'
    have := hmem'.2
    rcases hf with hf | hf <;> simp [hf] at this
  · intro hf
    have hnil : bookFilter jobLat jobLng rows = [] := by
      rw [bookFilter, List.filter_eq_nil_iff]
      intro t _
      rcases hf with hf | hf <;> simp [hf]
    have hsorted : sorted = [] := List.Perm.eq_nil (hnil ▸ hperm)
    rw [hsorted]
    rfl

/-- Witness for C10: a job with a missing latitude never reaches the one
online technician whose coordinates are known. -/
theorem claim_C10_truthiness_filter_witness :
    bookOutcome (bookJob 1) (([] : List TechRow).map TechRow.id) 0 =
      ⟨{ bookJob 1 with status := .pending_assignment }, none, true⟩ :=
  (claim_C10_truthiness_filter none (some 3) [⟨9, some 5, some 6⟩] [] 1 0
    (by decide)).2 (Or.inl rfl)
